import Mathlib

/-!
Verification of the Sabor del Campo service layer.

Shallow embedding of the four service components found in the repository:
the local (demo) Auth Service, the local-storage Product Service, the
Category Service and the backend-backed Product Service.  Browser
localStorage is modelled as an explicit record of the keys each service
touches; backend query results are modelled as an `Except` value carrying
either the error message or the returned rows (the supabase client returns
a data/error pair and never throws itself).  JSON serialization of the
session user is abstracted to the record being serialized.  Numeric values
are modelled as rationals; `toFixed(1)` is modelled by rounding to one
decimal and rendering (ties are not exercised by any claim).
-/

namespace SaborDelCampo

/-- One entry of the fixed credential table of the local Auth Service. -/
structure UserRec where
  username : String
  password : String
  name : String
deriving DecidableEq, Repr

/-- The session user record written to the `currentUser` storage key
(JSON serialization abstracted to the record itself). -/
structure SessionUser where
  username : String
  name : String
deriving DecidableEq, Repr

/-- Browser localStorage as seen by the local Auth Service: the two keys
`isLoggedIn` and `currentUser`; `none` means the key is absent. -/
structure Storage where
  isLoggedIn : Option String
  currentUser : Option SessionUser
deriving DecidableEq, Repr

/-- The result object returned by the local Auth Service login. -/
structure LoginResult where
  success : Bool
  user : Option SessionUser
  message : Option String
deriving DecidableEq, Repr

namespace AuthService

/-- The fixed credential table (`AuthService.users` in the source). -/
def users : List UserRec :=
  [⟨"admin", "admin123", "Administrador"⟩,
   ⟨"usuario", "user123", "Usuario Demo"⟩]

/-- Source `AuthService.login` (local variant): looks up the username/password
pair in the fixed table; on a match writes both storage keys and returns
success with the user, otherwise returns failure and leaves storage
untouched.  The artificial 500ms delay is a pure suspension and is
omitted from the functional model. -/
def login (username password : String) (st : Storage) : LoginResult × Storage :=
  match users.find? (fun u => u.username == username && u.password == password) with
  | some u =>
      ({ success := true
         user := some ⟨u.username, u.name⟩
         message := some "Login exitoso" },
       { isLoggedIn := some "true"
         currentUser := some ⟨u.username, u.name⟩ })
  | none =>
      ({ success := false, user := none, message := some "Credenciales incorrectas" }, st)

/-- Source `AuthService.logout` (local variant): removes both storage keys. -/
def logout (_st : Storage) : Storage :=
  { isLoggedIn := none, currentUser := none }

/-- Source `AuthService.isAuthenticated` (local variant): the `isLoggedIn` key
holds the literal string "true". -/
def isAuthenticated (st : Storage) : Bool :=
  st.isLoggedIn == some "true"

/-- A login/logout operation, for reasoning about operation sequences. -/
inductive Op where
  | login (username password : String)
  | logout
deriving DecidableEq, Repr

/-- Apply one operation to the storage (the storage effect of the op). -/
def applyOp (st : Storage) : Op → Storage
  | .login u p => (login u p st).2
  | .logout => logout st

/-- Run a sequence of login/logout operations. -/
def runOps (st : Storage) (ops : List Op) : Storage :=
  ops.foldl applyOp st

/-- The session invariant: the two storage keys are both present or both
absent. -/
def bothOrNeither (st : Storage) : Prop :=
  st.isLoggedIn.isSome = st.currentUser.isSome

instance (st : Storage) : Decidable (bothOrNeither st) := by
  unfold bothOrNeither; infer_instance

end AuthService

/-- A product record of the local-storage Product Service.  `id` is the
client-generated opaque string identifier; the same shape also stands for
the `productData` argument of addProduct/updateProduct (whose `id` field,
if any, is overwritten by the service). -/
structure Product where
  id : String
  name : String
  category : String
  cost : ℚ
  price : ℚ
  description : Option String
deriving DecidableEq, Repr

/-- State of the local-storage Product Service instance: the in-memory
product collection (kept write-through in sync with the
`sabor-del-campo-products` storage key, so the collection itself is the
store of record) and the editing cursor. -/
structure PState where
  products : List Product
  editingId : Option String
deriving DecidableEq, Repr

/-- Result of `validateProduct`. -/
structure ValidationResult where
  isValid : Bool
  errors : List String
deriving DecidableEq, Repr

/-- Result of `getStatistics` (`averageMargin` is a string in the source:
`averageMargin.toFixed(1)`). -/
structure Stats where
  totalProducts : Nat
  totalInventoryValue : ℚ
  averageMargin : String
  uniqueCategories : Nat
deriving DecidableEq, Repr

/-- Predicate: `needle` is a prefix of the second list (model of the character-level
comparison underlying JS `String.prototype.includes`). -/
def leadsWith : List Char → List Char → Bool
  | [], _ => true
  | _ :: _, [] => false
  | a :: as, b :: bs => a == b && leadsWith as bs

/-- Predicate: `needle` occurs as a contiguous substring of `hay`. -/
def hasSub (needle : List Char) : List Char → Bool
  | [] => needle.isEmpty
  | c :: rest => leadsWith needle (c :: rest) || hasSub needle rest

/-- JS `s.includes(pat)`: `pat` occurs as a substring of `s`. -/
def jsIncludes (s pat : String) : Bool :=
  hasSub pat.data s.data

/-- JS `String.prototype.toLowerCase` (ASCII-faithful model). -/
def jsToLower (s : String) : String :=
  ⟨s.data.map Char.toLower⟩

/-- JS `[...new Set(l)]`: the distinct elements of `l` in first-occurrence
order. -/
def jsSetList (l : List String) : List String :=
  l.foldl (fun acc a => if a ∈ acc then acc else acc ++ [a]) []

/-- The numeric value printed by JS `q.toFixed(1)`: `q` rounded to one
decimal place. -/
def roundTo1 (q : ℚ) : ℚ :=
  (round (q * 10) : ℚ) / 10

/-- Render a nonnegative tenths count `n` as the decimal string "i.d". -/
def tenthsRepr (n : Int) : String :=
  toString (n / 10) ++ "." ++ toString (n % 10)

/-- JS `q.toFixed(1)`: round to one decimal place and render with exactly
one digit after the decimal point. -/
def toFixed1 (q : ℚ) : String :=
  let n : Int := round (q * 10)
  if n < 0 then "-" ++ tenthsRepr (-n) else tenthsRepr n

namespace ProductService

/-- Source `getAllProducts` (local): a defensive copy of the collection. -/
def getAllProducts (st : PState) : List Product :=
  st.products

/-- Source `getProductById` (local): first product whose id matches. -/
def getProductById (id : String) (st : PState) : Option Product :=
  st.products.find? (fun p => p.id == id)

/-- Source `addProduct` (local): `{...productData, id: this.generateId()}` pushed
at the end of the collection, then persisted; returns the created record.
`generateId` (time plus randomness) is nondeterministic, so the generated
id is passed as the `newId` oracle parameter. -/
def addProduct (newId : String) (productData : Product) (st : PState) :
    Product × PState :=
  let newProduct := { productData with id := newId }
  (newProduct, { st with products := st.products ++ [newProduct] })

/-- Source `updateProduct` (local): replaces the record at the first index whose
id matches with `{...productData, id}` (the matched id overwrites any id
carried by the data), returns it; returns `none` and leaves the state
unchanged when no record matches. -/
def updateProduct (id : String) (productData : Product) (st : PState) :
    Option Product × PState :=
  match st.products.findIdx? (fun p => p.id == id) with
  | some i =>
      let updated := { productData with id := id }
      (some updated, { st with products := st.products.set i updated })
  | none => (none, st)

/-- Source `deleteProduct` (local): removes every record whose id matches;
persists and returns true iff the collection shrank. -/
def deleteProduct (id : String) (st : PState) : Bool × PState :=
  let remaining := st.products.filter (fun p => p.id != id)
  if remaining.length < st.products.length then
    (true, { st with products := remaining })
  else (false, st)

/-- Source `filterProducts` (local): case-insensitive substring match of the
search term against the name AND (empty filter, or exact category match). -/
def filterProducts (searchTerm categoryFilter : String) (st : PState) :
    List Product :=
  st.products.filter (fun product =>
    jsIncludes (jsToLower product.name) (jsToLower searchTerm) &&
    (categoryFilter == "" || product.category == categoryFilter))

/-- Source `getCategories` (local): distinct category values present across the
products. -/
def getCategories (st : PState) : List String :=
  jsSetList (st.products.map (·.category))

/-- Numeric value of `calculateMargin(cost, price)` (what `parseFloat`
recovers from the returned string; the number 0 when cost is 0). -/
def calculateMargin (cost price : ℚ) : ℚ :=
  if cost = 0 then 0 else roundTo1 ((price - cost) / cost * 100)

/-- The string form of `calculateMargin(cost, price)`: the source returns
`(((price - cost) / cost) * 100).toFixed(1)`, or the number 0 (rendered
"0" on coercion) when cost is 0. -/
def calculateMarginFixed (cost price : ℚ) : String :=
  if cost = 0 then "0" else toFixed1 ((price - cost) / cost * 100)

/-- Source `getStatistics` (local): length, straight sum of costs (`p.cost * 1`),
mean of per-product margins rendered by `toFixed(1)` (0 when there are no
products), and the number of distinct categories. -/
def getStatistics (st : PState) : Stats :=
  let totalProducts := st.products.length
  let totalInventoryValue := st.products.foldl (fun sum p => sum + p.cost * 1) 0
  let averageMargin : ℚ :=
    if 0 < totalProducts then
      (st.products.foldl (fun sum p => sum + calculateMargin p.cost p.price) 0)
        / (totalProducts : ℚ)
    else 0
  { totalProducts := totalProducts
    totalInventoryValue := totalInventoryValue
    averageMargin := toFixed1 averageMargin
    uniqueCategories := (getCategories st).length }

/-- Source `validateProduct`: collects every applicable error message, in source
order (JS truthiness on strings is emptiness, on numbers being zero). -/
def validateProduct (productData : Product) : ValidationResult :=
  let errors :=
    (if productData.name = "" ∨ productData.name.trim = "" then
      ["El nombre del producto es obligatorio"] else []) ++
    (if productData.category = "" then
      ["La categoría es obligatoria"] else []) ++
    (if productData.cost = 0 ∨ productData.cost ≤ 0 then
      ["El precio de costo debe ser mayor a 0"] else []) ++
    (if productData.price = 0 ∨ productData.price ≤ 0 then
      ["El precio de venta debe ser mayor a 0"] else []) ++
    (if productData.price < productData.cost then
      ["El precio de venta es menor al costo"] else [])
  { isValid := errors.length == 0, errors := errors }

/-- The three fixed sample products seeded by the local service when the
collection is empty. -/
def sampleProducts : List Product :=
  [⟨"sample1", "Tomate Cherry", "Verduras", 2500, 4000,
    some "Tomates cherry frescos, ideales para ensaladas"⟩,
   ⟨"sample2", "Aguacate Hass", "Frutas", 1800, 3000,
    some "Aguacates maduros de excelente calidad"⟩,
   ⟨"sample3", "Queso Campesino", "Lácteos", 8000, 12000,
    some "Queso fresco artesanal de la región"⟩]

/-- Source `setEditingProduct` (local): stores the id as given in the cursor and
returns the lookup result (possibly absent). -/
def setEditingProduct (id : String) (st : PState) : Option Product × PState :=
  (getProductById id st, { st with editingId := some id })

/-- Source `getEditingId` (local). -/
def getEditingId (st : PState) : Option String :=
  st.editingId

/-- Source `cancelEdit` (local): resets the cursor to absent. -/
def cancelEdit (st : PState) : PState :=
  { st with editingId := none }

/-- Source `isEditing` (local): the cursor is not null. -/
def isEditing (st : PState) : Bool :=
  st.editingId != none

end ProductService

/-- A category row of the backend `categories` table. -/
structure Category where
  id : Int
  name : String
deriving DecidableEq, Repr

/-- A product row as returned by the backend, joined with the category
name (`category: { name }`). -/
structure BProduct where
  id : Int
  name : String
  category_id : Int
  cost : ℚ
  price : ℚ
  description : Option String
  categoryName : String
deriving DecidableEq, Repr

/-- State of the backend-backed Product Service instance: the in-memory
cache of product rows and the (numeric) editing cursor. -/
structure BState where
  products : List BProduct
  editingId : Option Int
deriving DecidableEq, Repr

namespace CategoryService

/-- Source `CategoryService.loadCategories`: the supabase select returns a
data/error pair, modelled as an `Except`; on error the service logs and
returns the empty collection (no exception reaches the caller), on
success it returns the row set as-is. -/
def loadCategories (res : Except String (List Category)) : List Category :=
  match res with
  | .error _ => []
  | .ok data => data

end CategoryService

namespace ProductServiceB

/-- Source `loadProducts` (backend): on a query error the thrown descriptive
error is caught inside the service, the cache is reset to empty and the
empty collection is returned; on success the cache is set to `data || []`
(the query result may be null) and returned. -/
def loadProducts (res : Except String (Option (List BProduct))) (st : BState) :
    List BProduct × BState :=
  match res with
  | .error _ => ([], { st with products := [] })
  | .ok data =>
      let rows := data.getD []
      (rows, { st with products := rows })

/-- Source `getAllProducts` (backend): a defensive copy of the cache. -/
def getAllProducts (st : BState) : List BProduct :=
  st.products

/-- Source `getProductById` (backend): first cached row whose id matches. -/
def getProductById (id : Int) (st : BState) : Option BProduct :=
  st.products.find? (fun p => p.id == id)

/-- Source `addProduct` (backend): the insert returns the created row joined with
the category name (modelled as the `Except` argument); on success the row
is unshifted at the FRONT of the cache and returned; on backend error a
generic failure is thrown. -/
def addProduct (res : Except String BProduct) (st : BState) :
    Except String (BProduct × BState) :=
  match res with
  | .error _ => .error "Error al agregar el producto"
  | .ok row => .ok (row, { st with products := row :: st.products })

/-- Source `setEditingProduct` (backend): coerces the id to a number (`+id`,
modelled by taking the numeric value of the identifier) before storing
and looking it up. -/
def setEditingProduct (id : Int) (st : BState) : Option BProduct × BState :=
  (getProductById id st, { st with editingId := some id })

/-- Source `getEditingId` (backend). -/
def getEditingId (st : BState) : Option Int :=
  st.editingId

/-- Source `cancelEdit` (backend): resets the cursor to absent. -/
def cancelEdit (st : BState) : BState :=
  { st with editingId := none }

/-- Source `isEditing` (backend): the cursor is not null. -/
def isEditing (st : BState) : Bool :=
  st.editingId != none

end ProductServiceB

/-! Helper lemmas (shared). -/

theorem foldl_add_map {α : Type} (f : α → ℚ) (l : List α) (a : ℚ) :
    l.foldl (fun sum p => sum + f p) a = a + (l.map f).sum := by
  induction l generalizing a with
  | nil => simp
  | cons x xs ih => simp [ih, add_assoc]

theorem leadsWith_iff (n h : List Char) :
    leadsWith n h = true ↔ ∃ r, h = n ++ r := by
  induction n generalizing h with
  | nil => simp [leadsWith]
  | cons a as ih =>
      cases h with
      | nil => simp [leadsWith]
      | cons b bs =>
          simp only [leadsWith, Bool.and_eq_true, beq_iff_eq, ih,
            List.cons_append, List.cons.injEq]
          constructor
          · rintro ⟨hab, r, hr⟩; exact ⟨r, hab.symm, hr⟩
          · rintro ⟨r, hb, hr⟩; exact ⟨hb.symm, r, hr⟩

theorem hasSub_iff (n h : List Char) :
    hasSub n h = true ↔ ∃ l r, h = l ++ n ++ r := by
  induction h with
  | nil =>
      simp only [hasSub, List.isEmpty_iff]
      constructor
      · rintro rfl; exact ⟨[], [], rfl⟩
      · rintro ⟨l, r, hr⟩
        rcases List.append_eq_nil.mp (List.append_eq_nil.mp hr.symm).1 with ⟨-, h2⟩
        exact h2
  | cons c rest ih =>
      simp only [hasSub, Bool.or_eq_true, leadsWith_iff, ih]
      constructor
      · rintro (⟨r, hr⟩ | ⟨l, r, hr⟩)
        · exact ⟨[], r, by simp [hr]⟩
        · exact ⟨c :: l, r, by simp [hr]⟩
      · rintro ⟨l, r, hr⟩
        cases l with
        | nil => exact Or.inl ⟨r, by simpa using hr⟩
        | cons x l' =>
            simp only [List.cons_append, List.cons.injEq] at hr
            exact Or.inr ⟨l', r, hr.2⟩

theorem jsIncludes_empty (s : String) : jsIncludes s "" = true := by
  show hasSub [] s.data = true
  cases s.data with
  | nil => rfl
  | cons c rest => simp [hasSub, leadsWith]

theorem find?_append_last {α : Type} (f : α → Bool) (l : List α) (q : α)
    (h : ∀ p ∈ l, f p = false) (hq : f q = true) :
    (l ++ [q]).find? f = some q := by
  induction l with
  | nil => simp [List.find?, hq]
  | cons a as ih =>
      have ha : f a = false := h a (by simp)
      simp only [List.cons_append, List.find?, ha]
      exact ih fun p hp => h p (by simp [hp])

theorem findIdx?_append_last {α : Type} (f : α → Bool) (l : List α) (q : α)
    (h : ∀ p ∈ l, f p = false) (hq : f q = true) :
    (l ++ [q]).findIdx? f = some l.length := by
  induction l with
  | nil => simp [List.findIdx?, hq]
  | cons a as ih =>
      have ha : f a = false := h a (by simp)
      have := ih fun p hp => h p (by simp [hp])
      simp [List.findIdx?_cons, ha, this]

theorem findIdx?_eq_none {α : Type} (f : α → Bool) (l : List α)
    (h : ∀ p ∈ l, f p = false) :
    l.findIdx? f = none := by
  induction l with
  | nil => simp
  | cons a as ih =>
      have ha : f a = false := h a (by simp)
      have := ih fun p hp => h p (by simp [hp])
      simp [List.findIdx?_cons, ha, this]

theorem set_append_last {α : Type} (l : List α) (q r : α) :
    (l ++ [q]).set l.length r = l ++ [r] := by
  induction l with
  | nil => rfl
  | cons a as ih => simp [List.set, ih]

/-- jsSetList accumulator invariant: the result stays duplicate-free and
collects exactly the elements seen. -/
theorem jsSetList_aux (l : List String) :
    ∀ acc : List String, acc.Nodup →
      (l.foldl (fun acc a => if a ∈ acc then acc else acc ++ [a]) acc).Nodup ∧
      (l.foldl (fun acc a => if a ∈ acc then acc else acc ++ [a]) acc).toFinset =
        acc.toFinset ∪ l.toFinset := by
  induction l with
  | nil => intro acc hacc; simpa using hacc
  | cons a as ih =>
      intro acc hacc
      by_cases hmem : a ∈ acc
      · obtain ⟨h1, h2⟩ := ih acc hacc
        refine ⟨by simpa [hmem] using h1, ?_⟩
        simp only [List.foldl_cons, if_pos hmem, h2, List.toFinset_cons]
        ext x
        simp only [Finset.mem_union, List.mem_toFinset, Finset.mem_insert]
        constructor
        · rintro (hx | hx)
          · exact Or.inl hx
          · exact Or.inr (Or.inr hx)
        · rintro (hx | rfl | hx)
          · exact Or.inl hx
          · exact Or.inl hmem
          · exact Or.inr hx
      · have hnd : (acc ++ [a]).Nodup := by
          simp [List.nodup_append, hacc, hmem]
        obtain ⟨h1, h2⟩ := ih (acc ++ [a]) hnd
        refine ⟨by simpa [hmem] using h1, ?_⟩
        simp only [List.foldl_cons, if_neg hmem, h2, List.toFinset_append,
          List.toFinset_cons]
        ext x
        simp only [Finset.mem_union, List.mem_toFinset, Finset.mem_insert,
          List.mem_singleton, List.toFinset_nil, Finset.union_assoc,
          Finset.mem_singleton]
        tauto

theorem jsSetList_length (l : List String) :
    (jsSetList l).length = l.toFinset.card := by
  obtain ⟨h1, h2⟩ := jsSetList_aux l [] (by simp)
  have : (jsSetList l).toFinset = l.toFinset := by
    simpa [jsSetList] using h2
  rw [← this, List.toFinset_card_of_nodup]
  simpa [jsSetList] using h1

theorem mem_ite_singleton {c : Prop} [Decidable c] (a m : String) :
    a ∈ (if c then [m] else []) ↔ (c ∧ a = m) := by
  split <;> simp_all

theorem ite_singleton_sublist {c : Prop} [Decidable c] (m : String) :
    List.Sublist (if c then [m] else []) [m] := by
  split
  · exact List.Sublist.refl _
  · simp

theorem eq_or_le_zero (a : ℚ) : (a = 0 ∨ a ≤ 0) ↔ a ≤ 0 :=
  ⟨fun h => h.elim le_of_eq id, Or.inr⟩

/-! Claim theorems. -/

/-- Claim C1: local-variant login is determined by the fixed credential
table.  For "admin"/"admin123" it returns success with user
{admin, Administrador} and writes both storage keys (isLoggedIn = "true",
currentUser = the serialized user record), after which isAuthenticated
returns true; for any pair matching no table entry it returns failure
with message "Credenciales incorrectas" and leaves the storage keys
untouched. -/
theorem C1_local_login_credential_table :
    (∀ st : Storage,
      AuthService.login "admin" "admin123" st =
        ({ success := true, user := some ⟨"admin", "Administrador"⟩,
           message := some "Login exitoso" },
         { isLoggedIn := some "true",
           currentUser := some ⟨"admin", "Administrador"⟩ }) ∧
      AuthService.isAuthenticated (AuthService.login "admin" "admin123" st).2 = true) ∧
    (∀ (u p : String) (st : Storage),
      (∀ r ∈ AuthService.users, ¬(r.username = u ∧ r.password = p)) →
      AuthService.login u p st =
        ({ success := false, user := none,
           message := some "Credenciales incorrectas" }, st)) := by
  constructor
  · intro st
    exact ⟨rfl, rfl⟩
  · intro u p st h
    have hnone : AuthService.users.find?
        (fun r => r.username == u && r.password == p) = none := by
      rw [List.find?_eq_none]
      intro r hr
      simp only [Bool.and_eq_true, beq_iff_eq, not_and]
      intro h1 h2
      exact h r hr ⟨h1, h2⟩
    simp [AuthService.login, hnone]

/-- Witness for C1: the failure branch at the concrete pair
"admin"/"wrong" on empty storage. -/
theorem C1_local_login_credential_table_witness :
    (∀ r ∈ AuthService.users, ¬(r.username = "admin" ∧ r.password = "wrong")) ∧
    AuthService.login "admin" "wrong" ⟨none, none⟩ =
      ({ success := false, user := none,
         message := some "Credenciales incorrectas" }, ⟨none, none⟩) :=
  ⟨by decide, C1_local_login_credential_table.2 "admin" "wrong" ⟨none, none⟩ (by decide)⟩

/-- Claim C5: after any sequence of login/logout operations starting from
a storage satisfying the session invariant, the two keys isLoggedIn and
currentUser remain both present or both absent. -/
theorem C5_session_invariant (st : Storage) (ops : List AuthService.Op)
    (h : AuthService.bothOrNeither st) :
    AuthService.bothOrNeither (AuthService.runOps st ops) := by
  have step : ∀ (s : Storage) (op : AuthService.Op),
      AuthService.bothOrNeither s → AuthService.bothOrNeither (AuthService.applyOp s op) := by
    intro s op hs
    cases op with
    | logout => simp [AuthService.applyOp, AuthService.logout, AuthService.bothOrNeither]
    | login u p =>
        simp only [AuthService.applyOp, AuthService.login]
        cases hf : AuthService.users.find?
            (fun r => r.username == u && r.password == p) with
        | some r => simp [hf, AuthService.bothOrNeither]
        | none => simpa [hf] using hs
  induction ops generalizing st with
  | nil => exact h
  | cons op rest ih => exact ih _ (step st op h)

/-- Witness for C5: a concrete operation sequence from empty storage. -/
theorem C5_session_invariant_witness :
    AuthService.bothOrNeither ⟨none, none⟩ ∧
    AuthService.bothOrNeither (AuthService.runOps ⟨none, none⟩
      [AuthService.Op.login "admin" "admin123",
       AuthService.Op.login "admin" "wrong",
       AuthService.Op.logout]) :=
  ⟨by decide, C5_session_invariant ⟨none, none⟩ _ (by decide)⟩

/-- Claim C6: insertion order differs by variant.  After two successful
adds of A then B the backend variant's getAllProducts returns B before A
(front-insertion into the cache), while the local variant returns A
before B (append at the end). -/
theorem C6_insertion_order (a b : BProduct) (la lb : Product)
    (ia ib : String) (stB : BState) (stL : PState) :
    ((ProductServiceB.addProduct (.ok a) stB).bind fun r =>
      (ProductServiceB.addProduct (.ok b) r.2).map fun r2 =>
        ProductServiceB.getAllProducts r2.2) = .ok (b :: a :: stB.products) ∧
    ProductService.getAllProducts
        (ProductService.addProduct ib lb
          (ProductService.addProduct ia la stL).2).2 =
      stL.products ++ [{ la with id := ia }, { lb with id := ib }] := by
  constructor
  · rfl
  · simp [ProductService.addProduct, ProductService.getAllProducts]

/-- Claim C9: fail-soft loading.  When the backend query reports an
error, CategoryService.loadCategories and the backend loadProducts each
return the empty collection (no exception reaches the caller: both are
total functions here), and loadProducts additionally resets the cache to
empty. -/
theorem C9_fail_soft_load (e : String) (st : BState) :
    CategoryService.loadCategories (.error e) = [] ∧
    (ProductServiceB.loadProducts (.error e) st).1 = [] ∧
    (ProductServiceB.loadProducts (.error e) st).2 = { st with products := [] } :=
  ⟨rfl, rfl, rfl⟩

/-- Claim C10: the editing cursor may point at a nonexistent product.
setEditingProduct with an identifier matching no product still sets the
cursor (isEditing true, getEditingId the stored id — numeric in the
backend variant) while returning absent; cancelEdit resets the cursor to
absent, in both variants. -/
theorem C10_editing_cursor :
    (∀ (id : String) (st : PState), (∀ p ∈ st.products, p.id ≠ id) →
      (ProductService.setEditingProduct id st).1 = none ∧
      ProductService.isEditing (ProductService.setEditingProduct id st).2 = true ∧
      ProductService.getEditingId (ProductService.setEditingProduct id st).2 = some id) ∧
    (∀ st : PState,
      ProductService.isEditing (ProductService.cancelEdit st) = false ∧
      ProductService.getEditingId (ProductService.cancelEdit st) = none) ∧
    (∀ (id : Int) (st : BState), (∀ p ∈ st.products, p.id ≠ id) →
      (ProductServiceB.setEditingProduct id st).1 = none ∧
      ProductServiceB.isEditing (ProductServiceB.setEditingProduct id st).2 = true ∧
      ProductServiceB.getEditingId (ProductServiceB.setEditingProduct id st).2 = some id) ∧
    (∀ st : BState,
      ProductServiceB.isEditing (ProductServiceB.cancelEdit st) = false ∧
      ProductServiceB.getEditingId (ProductServiceB.cancelEdit st) = none) := by
  refine ⟨?_, ?_, ?_, ?_⟩
  · intro id st h
    have hnone : st.products.find? (fun p => p.id == id) = none := by
      rw [List.find?_eq_none]
      intro p hp
      simpa using h p hp
    refine ⟨?_, rfl, rfl⟩
    simp [ProductService.setEditingProduct, ProductService.getProductById, hnone]
  · intro st
    exact ⟨rfl, rfl⟩
  · intro id st h
    have hnone : st.products.find? (fun p => p.id == id) = none := by
      rw [List.find?_eq_none]
      intro p hp
      simpa using h p hp
    refine ⟨?_, rfl, rfl⟩
    simp [ProductServiceB.setEditingProduct, ProductServiceB.getProductById, hnone]
  · intro st
    exact ⟨rfl, rfl⟩

/-- Witness for C10: a lookup of a nonexistent id on an empty local
service still sets the cursor. -/
theorem C10_editing_cursor_witness :
    (∀ p ∈ (⟨[], none⟩ : PState).products, p.id ≠ "missing") ∧
    ((ProductService.setEditingProduct "missing" ⟨[], none⟩).1 = none ∧
     ProductService.isEditing (ProductService.setEditingProduct "missing" ⟨[], none⟩).2 = true ∧
     ProductService.getEditingId (ProductService.setEditingProduct "missing" ⟨[], none⟩).2 =
       some "missing") :=
  ⟨by decide, C10_editing_cursor.1 "missing" ⟨[], none⟩ (by decide)⟩

/-- Claim C7: calculateMargin computes ((price - cost) / cost) * 100
rounded to one decimal place; calculateMargin(2500, 4000) is 60.0,
rendered "60.0"; when cost is exactly 0 the guard returns 0, e.g.
calculateMargin(0, 100) = 0. -/
theorem C7_calculateMargin :
    ProductService.calculateMargin 2500 4000 = 60 ∧
    ProductService.calculateMarginFixed 2500 4000 = "60.0" ∧
    ProductService.calculateMargin 0 100 = 0 ∧
    (∀ price : ℚ, ProductService.calculateMargin 0 price = 0) ∧
    (∀ cost price : ℚ, cost ≠ 0 →
      ProductService.calculateMargin cost price =
        roundTo1 ((price - cost) / cost * 100) ∧
      ProductService.calculateMarginFixed cost price =
        toFixed1 ((price - cost) / cost * 100)) := by
  refine ⟨?_, ?_, ?_, ?_, ?_⟩
  · norm_num [ProductService.calculateMargin, roundTo1, round_eq]
  · have h1 : ((4000:ℚ) - 2500) / 2500 * 100 * 10 = 600 := by norm_num
    have hr : round ((600:ℚ)) = 600 := by norm_num [round_eq]
    norm_num [ProductService.calculateMarginFixed, toFixed1, tenthsRepr, h1, hr]
    decide
  · simp [ProductService.calculateMargin]
  · intro price; simp [ProductService.calculateMargin]
  · intro cost price h
    simp [ProductService.calculateMargin, ProductService.calculateMarginFixed, h]

/-- Witness for C7: the general rounding formula at cost 2500, price
4000. -/
theorem C7_calculateMargin_witness :
    ((2500:ℚ) ≠ 0) ∧
    ProductService.calculateMargin 2500 4000 =
      roundTo1 (((4000:ℚ) - 2500) / 2500 * 100) :=
  ⟨by decide, (C7_calculateMargin.2.2.2.2 2500 4000 (by decide)).1⟩

/-- Claim C2: local product round-trip.  With a fresh generated id,
addProduct returns a record retrievable by that id via getProductById;
updateProduct on that id keeps the id (overwriting any id carried by the
supplied data) while replacing all other fields and returns the updated
record — and returns absent when no record matches; deleteProduct on the
id returns true the first time and false on a second call. -/
theorem C2_local_product_roundtrip
    (st : PState) (newId : String) (d d2 : Product)
    (hfresh : ∀ p ∈ st.products, p.id ≠ newId) :
    ((ProductService.addProduct newId d st).1.id = newId ∧
     ProductService.getProductById newId (ProductService.addProduct newId d st).2 =
       some (ProductService.addProduct newId d st).1) ∧
    (ProductService.updateProduct newId d2 (ProductService.addProduct newId d st).2 =
      (some { d2 with id := newId },
       { (ProductService.addProduct newId d st).2 with
         products := st.products ++ [{ d2 with id := newId }] })) ∧
    ((ProductService.deleteProduct newId
        (ProductService.updateProduct newId d2
          (ProductService.addProduct newId d st).2).2).1 = true ∧
     (ProductService.deleteProduct newId
        (ProductService.deleteProduct newId
          (ProductService.updateProduct newId d2
            (ProductService.addProduct newId d st).2).2).2).1 = false) ∧
    (∀ (i : String) (dd : Product) (s : PState), (∀ p ∈ s.products, p.id ≠ i) →
      ProductService.updateProduct i dd s = (none, s)) := by
  have hfreshb : ∀ p ∈ st.products, (p.id == newId) = false := by
    intro p hp; simpa using hfresh p hp
  have hfind : (st.products ++ [{ d with id := newId }]).find?
      (fun p => p.id == newId) = some { d with id := newId } :=
    @find?_append_last Product (fun p => p.id == newId) st.products
      { d with id := newId } hfreshb (by simp)
  have hidx : (st.products ++ [{ d with id := newId }]).findIdx?
      (fun p : Product => p.id == newId) = some st.products.length :=
    @findIdx?_append_last Product (fun p => p.id == newId) st.products
      { d with id := newId } hfreshb (by simp)
  have hupd : ProductService.updateProduct newId d2
      (ProductService.addProduct newId d st).2 =
      (some { d2 with id := newId },
       { (ProductService.addProduct newId d st).2 with
         products := st.products ++ [{ d2 with id := newId }] }) := by
    simp only [ProductService.updateProduct, ProductService.addProduct, hidx]
    rw [set_append_last]
  have hfilter : (st.products ++ [{ d2 with id := newId }]).filter
      (fun p => p.id != newId) = st.products := by
    rw [List.filter_append]
    have h1 : st.products.filter (fun p => p.id != newId) = st.products :=
      List.filter_eq_self.mpr (by intro p hp; simpa using hfresh p hp)
    have h2 : List.filter (fun p => p.id != newId) [{ d2 with id := newId }] = [] := by
      simp
    rw [h1, h2, List.append_nil]
  have hfilterself : st.products.filter (fun p => p.id != newId) = st.products :=
    List.filter_eq_self.mpr (by intro p hp; simpa using hfresh p hp)
  refine ⟨⟨rfl, ?_⟩, hupd, ⟨?_, ?_⟩, ?_⟩
  · simpa [ProductService.getProductById, ProductService.addProduct] using hfind
  · rw [hupd]
    simp only [ProductService.deleteProduct, hfilter]
    simp
  · rw [hupd]
    have hdel1 : (ProductService.deleteProduct newId
        { (ProductService.addProduct newId d st).2 with
          products := st.products ++ [{ d2 with id := newId }] }).2 =
        { (ProductService.addProduct newId d st).2 with products := st.products } := by
      simp only [ProductService.deleteProduct, hfilter]
      simp
    rw [hdel1]
    simp only [ProductService.deleteProduct, hfilterself]
    simp
  · intro i dd s h
    have hnone : s.products.findIdx? (fun p => p.id == i) = none := by
      apply findIdx?_eq_none
      intro p hp; simpa using h p hp
    simp [ProductService.updateProduct, hnone]

/-- Witness for C2: the round-trip on an initially empty service with
generated id "k1". -/
theorem C2_local_product_roundtrip_witness :
    (∀ p ∈ (⟨[], none⟩ : PState).products, p.id ≠ "k1") ∧
    (ProductService.getProductById "k1"
        (ProductService.addProduct "k1" ⟨"", "Tomate", "Verduras", 1, 2, none⟩
          ⟨[], none⟩).2 =
      some (ProductService.addProduct "k1" ⟨"", "Tomate", "Verduras", 1, 2, none⟩
          ⟨[], none⟩).1) :=
  ⟨by decide,
   (C2_local_product_roundtrip ⟨[], none⟩ "k1"
      ⟨"", "Tomate", "Verduras", 1, 2, none⟩
      ⟨"other", "Tomate2", "Frutas", 3, 4, none⟩ (by decide)).1.2⟩

/-- Claim C3: validateProduct collects every applicable error, without
short-circuiting, in the listed order (the errors list is always an
in-order sublist of the five messages); each message appears exactly when
its condition holds (empty trimmed name, missing category, cost ≤ 0,
price ≤ 0, price < cost); on {name:"", category:"", cost:0, price:0} it
returns isValid:false with exactly the first 4 messages, the price<cost
check not firing when price and cost are equal. -/
theorem C3_validateProduct_collects_errors :
    ProductService.validateProduct ⟨"", "", "", 0, 0, none⟩ =
      { isValid := false,
        errors := ["El nombre del producto es obligatorio",
                   "La categoría es obligatoria",
                   "El precio de costo debe ser mayor a 0",
                   "El precio de venta debe ser mayor a 0"] } ∧
    (∀ d : Product,
      ((ProductService.validateProduct d).isValid = true ↔
        (ProductService.validateProduct d).errors = []) ∧
      List.Sublist (ProductService.validateProduct d).errors
        ["El nombre del producto es obligatorio",
         "La categoría es obligatoria",
         "El precio de costo debe ser mayor a 0",
         "El precio de venta debe ser mayor a 0",
         "El precio de venta es menor al costo"] ∧
      ("El nombre del producto es obligatorio" ∈
          (ProductService.validateProduct d).errors ↔
        (d.name = "" ∨ d.name.trim = "")) ∧
      ("La categoría es obligatoria" ∈
          (ProductService.validateProduct d).errors ↔ d.category = "") ∧
      ("El precio de costo debe ser mayor a 0" ∈
          (ProductService.validateProduct d).errors ↔ d.cost ≤ 0) ∧
      ("El precio de venta debe ser mayor a 0" ∈
          (ProductService.validateProduct d).errors ↔ d.price ≤ 0) ∧
      ("El precio de venta es menor al costo" ∈
          (ProductService.validateProduct d).errors ↔ d.price < d.cost)) := by
  constructor
  · simp [ProductService.validateProduct]
  · intro d
    refine ⟨?_, ?_, ?_, ?_, ?_, ?_, ?_⟩
    · simp [ProductService.validateProduct, List.length_eq_zero]
    · show List.Sublist (_ ++ _ ++ _ ++ _ ++ _) _
      exact ((((ite_singleton_sublist _).append
        (ite_singleton_sublist _)).append
        (ite_singleton_sublist _)).append
        (ite_singleton_sublist _)).append
        (ite_singleton_sublist _)
    · simp [ProductService.validateProduct, mem_ite_singleton]
    · simp [ProductService.validateProduct, mem_ite_singleton]
    · simp [ProductService.validateProduct, mem_ite_singleton, eq_or_le_zero]
    · simp [ProductService.validateProduct, mem_ite_singleton, eq_or_le_zero]
    · simp [ProductService.validateProduct, mem_ite_singleton]

/-- Claim C4: filterProducts is conjunctive — a product is kept exactly
when its lowercased name contains the lowercased search term as a
substring AND (the category filter is empty OR the category equals the
filter); an empty search term matches every product; concrete behaviour
on the two-product list of the claim. -/
theorem C4_filter_conjunctive :
    (∀ (st : PState) (s c : String) (p : Product),
      p ∈ ProductService.filterProducts s c st ↔
        p ∈ st.products ∧
        (∃ l r, (jsToLower p.name).data = l ++ (jsToLower s).data ++ r) ∧
        (c = "" ∨ p.category = c)) ∧
    (∀ (st : PState) (c : String) (p : Product),
      p ∈ ProductService.filterProducts "" c st ↔
        p ∈ st.products ∧ (c = "" ∨ p.category = c)) ∧
    (ProductService.filterProducts "tomate" "Verduras"
        ⟨[⟨"1", "Tomate Cherry", "Verduras", 2500, 4000, none⟩,
          ⟨"2", "Tomate Verde", "Frutas", 1000, 2000, none⟩], none⟩ =
      [⟨"1", "Tomate Cherry", "Verduras", 2500, 4000, none⟩]) ∧
    (ProductService.filterProducts "tomate" ""
        ⟨[⟨"1", "Tomate Cherry", "Verduras", 2500, 4000, none⟩,
          ⟨"2", "Tomate Verde", "Frutas", 1000, 2000, none⟩], none⟩ =
      [⟨"1", "Tomate Cherry", "Verduras", 2500, 4000, none⟩,
       ⟨"2", "Tomate Verde", "Frutas", 1000, 2000, none⟩]) ∧
    (ProductService.filterProducts "zzz" ""
        ⟨[⟨"1", "Tomate Cherry", "Verduras", 2500, 4000, none⟩,
          ⟨"2", "Tomate Verde", "Frutas", 1000, 2000, none⟩], none⟩ = []) := by
  have hmain : ∀ (st : PState) (s c : String) (p : Product),
      p ∈ ProductService.filterProducts s c st ↔
        p ∈ st.products ∧
        (∃ l r, (jsToLower p.name).data = l ++ (jsToLower s).data ++ r) ∧
        (c = "" ∨ p.category = c) := by
    intro st s c p
    simp only [ProductService.filterProducts, List.mem_filter,
      Bool.and_eq_true, Bool.or_eq_true, beq_iff_eq]
    rw [show (jsIncludes (jsToLower p.name) (jsToLower s) = true) ↔
        (∃ l r, (jsToLower p.name).data = l ++ (jsToLower s).data ++ r) from
      hasSub_iff (jsToLower s).data (jsToLower p.name).data]
  refine ⟨hmain, ?_, by rfl, by rfl, by rfl⟩
  intro st c p
  rw [hmain]
  have : ∃ l r, (jsToLower p.name).data = l ++ (jsToLower "").data ++ r :=
    ⟨[], (jsToLower p.name).data, rfl⟩
  tauto

/-- Claim C8: getStatistics aggregates correctly — totalInventoryValue is
the straight sum of cost fields, totalProducts the collection length,
uniqueCategories the count of distinct category values, averageMargin the
mean of per-product margins rendered to one decimal; on the three fixed
sample products this gives 12300 / 3 / 3 (and averageMargin "58.9"). -/
theorem C8_statistics (st : PState) :
    (ProductService.getStatistics st).totalProducts = st.products.length ∧
    (ProductService.getStatistics st).totalInventoryValue =
      (st.products.map (fun p => p.cost)).sum ∧
    (ProductService.getStatistics st).uniqueCategories =
      (st.products.map (fun p => p.category)).toFinset.card ∧
    (0 < st.products.length →
      (ProductService.getStatistics st).averageMargin =
        toFixed1 ((st.products.map
            (fun p => ProductService.calculateMargin p.cost p.price)).sum /
          (st.products.length : ℚ))) ∧
    ProductService.getStatistics ⟨ProductService.sampleProducts, none⟩ =
      ⟨3, 12300, "58.9", 3⟩ := by
  refine ⟨rfl, ?_, ?_, ?_, ?_⟩
  · show st.products.foldl (fun sum p => sum + p.cost * 1) 0 = _
    simp only [mul_one]
    rw [foldl_add_map (fun p : Product => p.cost), zero_add]
  · show (jsSetList (st.products.map (fun p => p.category))).length = _
    exact jsSetList_length _
  · intro h
    show toFixed1 _ = _
    rw [if_pos h,
      foldl_add_map (fun p : Product => ProductService.calculateMargin p.cost p.price),
      zero_add]
  · have m1 : ProductService.calculateMargin 2500 4000 = 60 := by
      norm_num [ProductService.calculateMargin, roundTo1, round_eq]
    have m2 : ProductService.calculateMargin 1800 3000 = 667/10 := by
      norm_num [ProductService.calculateMargin, roundTo1, round_eq]
    have m3 : ProductService.calculateMargin 8000 12000 = 50 := by
      norm_num [ProductService.calculateMargin, roundTo1, round_eq]
    have hfix : toFixed1 (((60:ℚ) + 667/10 + 50)/3) = "58.9" := by
      have h1 : (((60:ℚ) + 667/10 + 50)/3) * 10 = 589 := by norm_num
      have hr : round ((589:ℚ)) = 589 := by norm_num [round_eq]
      simp [toFixed1, h1, hr, tenthsRepr]
      decide
    simp [ProductService.getStatistics, ProductService.sampleProducts,
      ProductService.getCategories, jsSetList, m1, m2, m3, hfix]
    norm_num

/-- Witness for C8: the averageMargin formula at the sample-product
state. -/
theorem C8_statistics_witness :
    0 < (⟨ProductService.sampleProducts, none⟩ : PState).products.length ∧
    (ProductService.getStatistics ⟨ProductService.sampleProducts, none⟩).averageMargin =
      toFixed1 (((⟨ProductService.sampleProducts, none⟩ : PState).products.map
          (fun p => ProductService.calculateMargin p.cost p.price)).sum /
        ((⟨ProductService.sampleProducts, none⟩ : PState).products.length : ℚ)) :=
  ⟨by decide,
   (C8_statistics ⟨ProductService.sampleProducts, none⟩).2.2.2.1 (by decide)⟩

end SaborDelCampo
